import Mathlib

/-!
Verification of the chatexo-server room registry and signaling relay.

The development shallowly embeds the server's state and event handlers:

* `RedisState` models the Redis-backed Room Store of `src/server.js`
  (`RoomManager`): the per-room hash `room:{id}`, the membership set
  `rooms:active`, and the recency sorted set `rooms:latest`.  Association
  lists over `String` keys stand in for the Redis keyspace; timestamps
  are milliseconds as `Nat`, user counts are `Int` (JS numbers).
* `ServerState` models one gateway process: the `activeConnections` map,
  the live socket objects (with their `socket.roomId` expando), and the
  socket.io adapter's room-membership relation (`ioRooms`), in which every
  socket is also a member of the room named by its own id.
* The event handlers of `src/signal.js` (`join-room`, `offer`/`answer`/
  `ice-candidate`, `audio-status`, `speaking-status`, `leave-room`,
  `disconnect`, `reconnect-to-room`) become pure functions
  `ServerState → ServerState × List Emit`.
-/

/-- First-match lookup in an association list (Redis `HGETALL` existence /
`Map.get` semantics). -/
def lookupA {α : Type} (l : List (String × α)) (k : String) : Option α :=
  match l with
  | [] => none
  | (k', v) :: t => if k' = k then some v else lookupA t k

/-- Overwrite-or-insert in an association list (Redis `HSET` / `ZADD` /
`Map.set` semantics). -/
def setA {α : Type} (l : List (String × α)) (k : String) (v : α) : List (String × α) :=
  match l with
  | [] => [(k, v)]
  | (k', v') :: t => if k' = k then (k, v) :: t else (k', v') :: setA t k v

/-- Delete a key from an association list (Redis `DEL` / `Map.delete`
semantics; removes every binding of the key). -/
def delA {α : Type} (l : List (String × α)) (k : String) : List (String × α) :=
  l.filter (fun p => p.1 ≠ k)

/-- Update the value at a key when the key is present, leaving the list
unchanged otherwise. -/
def modifyA {α : Type} (l : List (String × α)) (k : String) (f : α → α) : List (String × α) :=
  match l with
  | [] => []
  | (k', v) :: t => if k' = k then (k', f v) :: modifyA t k f else (k', v) :: modifyA t k f

/-- The room hash stored at `room:{roomId}` (`src/server.js`,
`RoomManager.createRoom`): `userCount`, `createdAt`, `lastActivity`,
`createdBy`, `isActive`.  Timestamps are epoch milliseconds. -/
structure StoredRoom where
  userCount : Int
  createdAt : Nat
  lastActivity : Nat
  createdBy : Option String
  isActive : Bool
deriving DecidableEq

/-- The Redis keyspace used by `RoomManager`: the per-room hashes, the
`rooms:active` set and the `rooms:latest` sorted set (room id ↦ score). -/
structure RedisState where
  roomHash : List (String × StoredRoom)
  roomsList : List String
  roomsLatest : List (String × Nat)
deriving DecidableEq

/-- `RoomManager.createRoom` (`src/server.js` lines 94-119): stores the
room hash with `userCount` 0 and `isActive` true, adds the id to
`rooms:active`, and scores it in `rooms:latest`. -/
def createRoom (now : Nat) (roomId : String) (createdBy : Option String)
    (rs : RedisState) : StoredRoom × RedisState :=
  let rd : StoredRoom :=
    { userCount := 0, createdAt := now, lastActivity := now
      createdBy := createdBy, isActive := true }
  (rd,
   { roomHash := setA rs.roomHash roomId rd
     roomsList := if roomId ∈ rs.roomsList then rs.roomsList else roomId :: rs.roomsList
     roomsLatest := setA rs.roomsLatest roomId now })

/-- `RoomManager.getRoom`: `HGETALL room:{id}`, `null` when the hash is
absent. -/
def getRoom (rs : RedisState) (roomId : String) : Option StoredRoom :=
  lookupA rs.roomHash roomId

/-- `RoomManager.updateRoomActivity` (`src/server.js` lines 134-153):
returns `false` when the id is not in `rooms:active`; otherwise overwrites
`userCount`, refreshes `lastActivity`, recomputes `isActive` as
`userCount > 0`, re-scores `rooms:latest`, and returns `true`.  (In every
state this program produces, an id in `rooms:active` also has its room
hash present, so updating the hash only when present coincides with
`HSET`.) -/
def updateRoomActivity (now : Nat) (roomId : String) (userCount : Int)
    (rs : RedisState) : RedisState × Bool :=
  if roomId ∈ rs.roomsList then
    ({ roomHash := modifyA rs.roomHash roomId (fun rd =>
         { rd with userCount := userCount, lastActivity := now
                   isActive := decide (userCount > 0) })
       roomsList := rs.roomsList
       roomsLatest := setA rs.roomsLatest roomId now }, true)
  else (rs, false)

/-- `RoomManager.removeRoom`: deletes the hash and both index entries. -/
def removeRoom (roomId : String) (rs : RedisState) : RedisState :=
  { roomHash := delA rs.roomHash roomId
    roomsList := rs.roomsList.filter (fun r => r ≠ roomId)
    roomsLatest := delA rs.roomsLatest roomId }

/-- Whether `RoomManager.cleanupInactiveRooms` retires a room: the JS test
is `(Date.now() - lastActivity) / 3600000 > 24` with float division, which
over the reals is exactly `now - lastActivity > 86400000`; the subtraction
is signed, so a future `lastActivity` never qualifies. -/
def staleRoom (now : Nat) (rd : StoredRoom) : Bool :=
  decide ((now : Int) - (rd.lastActivity : Int) > 24 * 60 * 60 * 1000)

/-- `RoomManager.cleanupInactiveRooms` (`src/server.js` lines 193-214):
iterates the snapshot of `rooms:active` and removes every room whose
`lastActivity` lies more than 24 hours in the past.  The loop tests only
the age of the room; `userCount` is not consulted. -/
def cleanupInactiveRooms (now : Nat) (rs : RedisState) : RedisState :=
  rs.roomsList.foldl (fun acc roomId =>
    match getRoom acc roomId with
    | some rd => if staleRoom now rd then removeRoom roomId acc else acc
    | none => acc) rs

/-- A Room Store holding exactly one room, with the given count and
`lastActivity`, as `createRoom` followed by one `updateRoomActivity`
leaves it. -/
def singleRoomStore (roomId : String) (userCount : Int) (lastActivity : Nat) : RedisState :=
  { roomHash := [(roomId,
      { userCount := userCount, createdAt := 0, lastActivity := lastActivity
        createdBy := none, isActive := decide (userCount > 0) })]
    roomsList := [roomId]
    roomsLatest := [(roomId, lastActivity)] }

/-- Claim C1 (code bug): contrary to the claim — and to the repository's
own README ("Automatic cleanup of empty rooms older than 1 hour") and the
earlier in-repo implementation, which both require emptiness — the sweep
in `cleanupInactiveRooms` removes a room with `userCount = 5` as soon as
its `lastActivity` is more than 24 hours old, because the code never
consults `userCount`. -/
theorem C1_sweep_removes_occupied_room :
    getRoom (singleRoomStore "r" 5 0) "r" ≠ none ∧
    (getRoom (singleRoomStore "r" 5 0) "r").all (fun rd => rd.userCount = 5) ∧
    getRoom (cleanupInactiveRooms 90000000 (singleRoomStore "r" 5 0)) "r" = none := by
  refine ⟨by decide, by decide, by decide⟩

/-- Messages the gateway emits to a client channel (`socket.emit` /
`socket.to(...).emit` payloads in `src/signal.js`). -/
inductive Msg where
  | joinError (message : String)
  | joinedRoom (roomId : String) (userCount : Int)
  | userJoined (userId : String) (userCount : Int)
  | newUser (userId : String)
  | offerMsg (fromUserId : String) (payload : String)
  | answerMsg (fromUserId : String) (payload : String)
  | iceCandidateMsg (fromUserId : String) (payload : String)
  | userAudioStatus (userId : String) (isMuted : Bool)
  | userSpeakingStatus (userId : String) (isSpeaking : Bool)
  | userLeft (userId : String) (userCount : Int)
  | reconnectError (message : String)
  | reconnectedToRoom (roomId : String) (userCount : Int)
  | userReconnected (userId : String) (userCount : Int)
deriving DecidableEq

/-- One delivery: target connection id and the message sent to it. -/
abbrev Emit := String × Msg

/-- The value stored in the gateway's `activeConnections` map. -/
structure ConnInfo where
  connectedAt : Nat
  roomId : Option String
deriving DecidableEq

/-- A live socket object: its id and the `socket.roomId` expando property
(absent until a join). -/
structure SocketState where
  sid : String
  roomId : Option String
deriving DecidableEq

/-- One gateway process: the Room Store client, the `activeConnections`
map, the live sockets, and the socket.io adapter's membership relation
`ioRooms` (pairs of room name and member socket id; on connection every
socket is a member of the room named by its own id). -/
structure ServerState where
  redis : RedisState
  activeConnections : List (String × ConnInfo)
  sockets : List SocketState
  ioRooms : List (String × String)
deriving DecidableEq

/-- Ids of the live sockets of a gateway. -/
def socketIds (s : ServerState) : List String :=
  s.sockets.map (fun sk => sk.sid)

/-- The live socket with the given id, if any. -/
def findSocket (s : ServerState) (sid : String) : Option SocketState :=
  s.sockets.find? (fun sk => sk.sid = sid)

/-- Member socket ids of a socket.io room (`io.in(room).fetchSockets()`). -/
def membersOf (l : List (String × String)) (room : String) : List String :=
  l.filterMap (fun p => if p.1 = room then some p.2 else none)

/-- `socket.to(room).emit` targets: members of the room except the
sender. -/
def socketTo (l : List (String × String)) (room sender : String) : List String :=
  (membersOf l room).filter (fun c => c ≠ sender)

/-- `socket.join(room)`: adds the membership unless already present. -/
def joinIoRoom (l : List (String × String)) (room sid : String) : List (String × String) :=
  if (room, sid) ∈ l then l else l ++ [(room, sid)]

/-- Mutate the socket object with the given id (leaves the list unchanged
when no such socket is live). -/
def modifySocket (sid : String) (f : SocketState → SocketState)
    (l : List SocketState) : List SocketState :=
  match l with
  | [] => []
  | sk :: t =>
    (if sk.sid = sid then f sk else sk) :: modifySocket sid f t

/-- JS truthiness of the `socket.roomId` expando: `undefined` and the
empty string are both falsy. -/
def truthyRoom (r : Option String) : Bool :=
  match r with
  | some v => decide (v ≠ "")
  | none => false

/-- The `io.on('connection')` bootstrap (`src/signal.js` lines 2-9):
registers the connection in `activeConnections` with a null `roomId`,
creates the socket object, and (socket.io behaviour) makes the socket a
member of the room named by its own id. -/
def connectEvent (now : Nat) (sid : String) (s : ServerState) : ServerState :=
  { s with
      activeConnections := setA s.activeConnections sid { connectedAt := now, roomId := none }
      sockets := s.sockets ++ [{ sid := sid, roomId := none }]
      ioRooms := s.ioRooms ++ [(sid, sid)] }

/-- The `join-room` handler (`src/signal.js` lines 12-71): rejects a wrong
password with `join-error` before touching any state; otherwise fetches or
lazily creates the room, binds the connection to it, joins the socket.io
room, writes the incremented count through `updateRoomActivity`, replies
`joined-room`, and notifies the other room members (`user-joined`, and
`new-user` when the room now has more than one socket). -/
def joinRoom (now : Nat) (sid roomId password : String)
    (s : ServerState) : ServerState × List Emit :=
  if password ≠ "secret" then
    (s, [(sid, Msg.joinError "Invalid password")])
  else
    let fetched :=
      match getRoom s.redis roomId with
      | some r => (r, s.redis)
      | none => createRoom now roomId none s.redis
    let conns := modifyA s.activeConnections sid (fun ci => { ci with roomId := some roomId })
    let rooms1 := joinIoRoom s.ioRooms roomId sid
    let socks := modifySocket sid (fun sk => { sk with roomId := some roomId }) s.sockets
    let currentUserCount : Int := fetched.1.userCount + 1
    let redis2 := (updateRoomActivity now roomId currentUserCount fetched.2).1
    let s' : ServerState :=
      { redis := redis2, activeConnections := conns, sockets := socks, ioRooms := rooms1 }
    let others := socketTo rooms1 roomId sid
    (s',
     (sid, Msg.joinedRoom roomId currentUserCount)
       :: others.map (fun c => (c, Msg.userJoined sid currentUserCount))
       ++ (if (membersOf rooms1 roomId).length > 1
           then others.map (fun c => (c, Msg.newUser sid)) else []))

/-- The relay kinds of the three WebRTC signaling handlers. -/
inductive RelayKind where
  | offerKind
  | answerKind
  | iceKind
deriving DecidableEq

/-- The message a relay of the given kind delivers. -/
def relayMsg (k : RelayKind) (fromUserId payload : String) : Msg :=
  match k with
  | RelayKind.offerKind => Msg.offerMsg fromUserId payload
  | RelayKind.answerKind => Msg.answerMsg fromUserId payload
  | RelayKind.iceKind => Msg.iceCandidateMsg fromUserId payload

/-- The `offer`, `answer` and `ice-candidate` handlers (`src/signal.js`
lines 74-104): each emits `{fromUserId, payload}` via
`socket.to(targetUserId)`, i.e. to every member of the socket.io room
named `targetUserId` except the sender, and changes no state. -/
def relayEvent (k : RelayKind) (sid targetUserId payload : String)
    (s : ServerState) : ServerState × List Emit :=
  (s, (socketTo s.ioRooms targetUserId sid).map (fun c => (c, relayMsg k sid payload)))

/-- The `audio-status` handler (`src/signal.js` lines 107-116): when
`socket.roomId` is truthy, broadcasts `user-audio-status` to the other
members of that room; otherwise does nothing. -/
def audioStatusEvent (sid : String) (isMuted : Bool)
    (s : ServerState) : ServerState × List Emit :=
  match findSocket s sid with
  | some sock =>
    if truthyRoom sock.roomId then
      match sock.roomId with
      | some r =>
        (s, (socketTo s.ioRooms r sid).map (fun c => (c, Msg.userAudioStatus sid isMuted)))
      | none => (s, [])
    else (s, [])
  | none => (s, [])

/-- The `speaking-status` handler (`src/signal.js` lines 119-127):
analogous to `audio-status` with `user-speaking-status`. -/
def speakingStatusEvent (sid : String) (isSpeaking : Bool)
    (s : ServerState) : ServerState × List Emit :=
  match findSocket s sid with
  | some sock =>
    if truthyRoom sock.roomId then
      match sock.roomId with
      | some r =>
        (s, (socketTo s.ioRooms r sid).map (fun c => (c, Msg.userSpeakingStatus sid isSpeaking)))
      | none => (s, [])
    else (s, [])
  | none => (s, [])

/-- `handleUserLeave` (`src/signal.js` lines 200-238), shared by
`leave-room` and `disconnect`: when `socket.roomId` is truthy it counts
the sockets in the room, writes `max 0 (members - 1)` through
`updateRoomActivity`, broadcasts `user-left` to the other members, leaves
the socket.io room and clears `socket.roomId`; in every case it deletes
the connection's `activeConnections` entry.  The room itself is never
removed here. -/
def handleUserLeave (now : Nat) (sid : String)
    (s : ServerState) : ServerState × List Emit :=
  match findSocket s sid with
  | some sock =>
    if truthyRoom sock.roomId then
      match sock.roomId with
      | some roomId =>
        let roomSockets := membersOf s.ioRooms roomId
        let newUserCount : Int := max 0 ((roomSockets.length : Int) - 1)
        ({ redis := (updateRoomActivity now roomId newUserCount s.redis).1
           activeConnections := delA s.activeConnections sid
           sockets := modifySocket sid (fun sk => { sk with roomId := none }) s.sockets
           ioRooms := s.ioRooms.filter (fun p => p ≠ (roomId, sid)) },
         (socketTo s.ioRooms roomId sid).map (fun c => (c, Msg.userLeft sid newUserCount)))
      | none => ({ s with activeConnections := delA s.activeConnections sid }, [])
    else ({ s with activeConnections := delA s.activeConnections sid }, [])
  | none => ({ s with activeConnections := delA s.activeConnections sid }, [])

/-- The `leave-room` handler: exactly `handleUserLeave`. -/
def leaveRoom (now : Nat) (sid : String) (s : ServerState) : ServerState × List Emit :=
  handleUserLeave now sid s

/-- The `disconnect` handler: by the time it runs, socket.io has already
removed the socket from every room (its own id room included); then
`handleUserLeave` runs, and finally the socket object is gone. -/
def disconnectEvent (now : Nat) (sid : String)
    (s : ServerState) : ServerState × List Emit :=
  let s1 := { s with ioRooms := s.ioRooms.filter (fun p => p.2 ≠ sid) }
  let r := handleUserLeave now sid s1
  ({ r.1 with sockets := r.1.sockets.filter (fun sk => sk.sid ≠ sid) }, r.2)

/-- The `reconnect-to-room` handler (`src/signal.js` lines 141-190): a
falsy (empty) room id or a room absent from the store yields
`reconnect-error` and no state change; otherwise the socket rejoins the
socket.io room, the connection is re-bound, the count is re-derived from
the live room membership and written through `updateRoomActivity`, the
requester gets `reconnected-to-room` and the other members get
`user-reconnected`. -/
def reconnectToRoom (now : Nat) (sid roomId : String)
    (s : ServerState) : ServerState × List Emit :=
  if roomId = "" then
    (s, [(sid, Msg.reconnectError "Room ID required for reconnection")])
  else
    match getRoom s.redis roomId with
    | none => (s, [(sid, Msg.reconnectError "Room no longer exists")])
    | some _ =>
      let rooms1 := joinIoRoom s.ioRooms roomId sid
      let socks := modifySocket sid (fun sk => { sk with roomId := some roomId }) s.sockets
      let conns := modifyA s.activeConnections sid (fun ci => { ci with roomId := some roomId })
      let n : Int := ((membersOf rooms1 roomId).length : Int)
      let s' : ServerState :=
        { redis := (updateRoomActivity now roomId n s.redis).1
          activeConnections := conns, sockets := socks, ioRooms := rooms1 }
      (s',
       (sid, Msg.reconnectedToRoom roomId n)
         :: (socketTo rooms1 roomId sid).map (fun c => (c, Msg.userReconnected sid n)))

/-- A gateway with no rooms, no connections and no sockets. -/
def initialState : ServerState :=
  { redis := { roomHash := [], roomsList := [], roomsLatest := [] }
    activeConnections := [], sockets := [], ioRooms := [] }

/-- The event alphabet of the membership invariant: connection openings
and the `join-room` / `leave-room` handlers, each stamped with the wall
clock at which it is processed. -/
inductive GEvent where
  | connect (now : Nat) (sid : String)
  | joinEv (now : Nat) (sid roomId password : String)
  | leaveEv (now : Nat) (sid : String)
deriving DecidableEq

/-- Dispatch one event to its handler. -/
def gstep (e : GEvent) (s : ServerState) : ServerState × List Emit :=
  match e with
  | GEvent.connect now sid => (connectEvent now sid s, [])
  | GEvent.joinEv now sid roomId password => joinRoom now sid roomId password s
  | GEvent.leaveEv now sid => leaveRoom now sid s

/-- Run a sequence of events, discarding the emitted messages. -/
def grun (es : List GEvent) (s : ServerState) : ServerState :=
  es.foldl (fun s e => (gstep e s).1) s

/-- Socket ids currently bound to the room `r` (the connections in the
`Joined` state for `r`): the live sockets whose `socket.roomId` is `r`. -/
def joinedSids (socks : List SocketState) (r : String) : List String :=
  socks.filterMap (fun sk => if sk.roomId = some r then some sk.sid else none)

/-- Side conditions under which an event respects the presence state
machine of the specification: a `connect` brings a fresh id that also
names no room currently joined by a socket; a `join-room` comes from a
live, currently-unjoined socket and names a nonempty room id that is not
a connection id.  `leave-room` is unrestricted. -/
def preB (s : ServerState) (e : GEvent) : Bool :=
  match e with
  | GEvent.connect _ sid =>
    decide (sid ∉ socketIds s) &&
      s.sockets.all (fun sk => sk.roomId ≠ some sid)
  | GEvent.joinEv _ sid roomId _ =>
    (match findSocket s sid with
     | some sk => decide (sk.roomId = none)
     | none => false) &&
      decide (roomId ≠ "") && decide (roomId ∉ socketIds s)
  | GEvent.leaveEv _ _ => true

/-- A sequence of events is legal from a state when every event satisfies
`preB` in the state it is applied to. -/
def legalFrom (s : ServerState) (es : List GEvent) : Bool :=
  match es with
  | [] => true
  | e :: t => preB s e && legalFrom (gstep e s).1 t

theorem lookupA_setA {α : Type} (l : List (String × α)) (k k' : String) (v : α) :
    lookupA (setA l k v) k' = if k = k' then some v else lookupA l k' := by
  induction l with
  | nil => by_cases h : k = k' <;> simp [setA, lookupA, h]
  | cons p t ih =>
    obtain ⟨k0, v0⟩ := p
    by_cases h0 : k0 = k
    · subst h0
      by_cases h1 : k0 = k' <;> simp [setA, lookupA, h1]
    · by_cases h1 : k0 = k'
      · subst h1
        have hk : ¬ k = k0 := fun h => h0 h.symm
        simp [setA, lookupA, h0, hk]
      · simp [setA, lookupA, h0, h1, ih]

theorem lookupA_modifyA {α : Type} (l : List (String × α)) (k k' : String) (f : α → α) :
    lookupA (modifyA l k f) k' =
      if k = k' then (lookupA l k').map f else lookupA l k' := by
  induction l with
  | nil => by_cases h : k = k' <;> simp [modifyA, lookupA, h]
  | cons p t ih =>
    obtain ⟨k0, v0⟩ := p
    by_cases h0 : k0 = k
    · subst h0
      by_cases h1 : k0 = k' <;> simp [modifyA, lookupA, h1, ih]
    · by_cases h1 : k0 = k'
      · subst h1
        have hk : ¬ k = k0 := fun h => h0 h.symm
        simp [modifyA, lookupA, h0, hk]
      · simp [modifyA, lookupA, h0, h1, ih]

theorem lookupA_delA {α : Type} (l : List (String × α)) (k k' : String) :
    lookupA (delA l k) k' = if k = k' then none else lookupA l k' := by
  induction l with
  | nil => by_cases h : k = k' <;> simp [delA, lookupA, h]
  | cons p t ih =>
    obtain ⟨k0, v0⟩ := p
    by_cases h0 : k0 = k
    · subst h0
      by_cases h1 : k0 = k' <;> simp_all [delA, lookupA]
    · by_cases h1 : k0 = k'
      · subst h1
        have hk : ¬ k = k0 := fun h => h0 h.symm
        simp_all [delA, lookupA]
      · simp_all [delA, lookupA]

theorem updateRoomActivity_fst_roomsList (now : Nat) (roomId : String) (c : Int)
    (rs : RedisState) :
    ((updateRoomActivity now roomId c rs).1).roomsList = rs.roomsList := by
  unfold updateRoomActivity
  split <;> rfl

theorem updateRoomActivity_of_not_mem (now : Nat) (roomId : String) (c : Int)
    (rs : RedisState) (h : roomId ∉ rs.roomsList) :
    updateRoomActivity now roomId c rs = (rs, false) := by
  simp [updateRoomActivity, h]

theorem updateRoomActivity_of_mem (now : Nat) (roomId : String) (c : Int)
    (rs : RedisState) (h : roomId ∈ rs.roomsList) :
    (updateRoomActivity now roomId c rs).2 = true ∧
      ∀ r, getRoom ((updateRoomActivity now roomId c rs).1) r =
        if roomId = r then
          (getRoom rs r).map (fun rd =>
            { rd with userCount := c, lastActivity := now, isActive := decide (c > 0) })
        else getRoom rs r := by
  refine ⟨by simp [updateRoomActivity, h], fun r => ?_⟩
  simp [updateRoomActivity, h, getRoom, lookupA_modifyA]

theorem getRoom_updateRoomActivity_isSome (now : Nat) (roomId : String) (c : Int)
    (rs : RedisState) (r : String) :
    (getRoom ((updateRoomActivity now roomId c rs).1) r).isSome =
      (getRoom rs r).isSome := by
  by_cases h : roomId ∈ rs.roomsList
  · rw [(updateRoomActivity_of_mem now roomId c rs h).2 r]
    split <;> simp
  · rw [updateRoomActivity_of_not_mem now roomId c rs h]

theorem handleUserLeave_keeps_rooms (now : Nat) (sid : String) (s : ServerState) :
    (handleUserLeave now sid s).1.redis.roomsList = s.redis.roomsList ∧
      ∀ r, (getRoom (handleUserLeave now sid s).1.redis r).isSome =
        (getRoom s.redis r).isSome := by
  unfold handleUserLeave
  cases hf : findSocket s sid with
  | none => exact ⟨rfl, fun r => rfl⟩
  | some sock =>
    cases hr : sock.roomId with
    | none => simp [truthyRoom, hr]
    | some roomId =>
      by_cases he : roomId = ""
      · simp [truthyRoom, hr, he]
      · simp [truthyRoom, hr, he, updateRoomActivity_fst_roomsList,
          getRoom_updateRoomActivity_isSome]


/-- Claim C6: a `join-room` whose password fails validation makes the
gateway emit `join-error` to the requester and change nothing: the
password check precedes every state mutation, so the connection stays
unjoined, no room is created, and no Room Store field is written. -/
theorem C6_invalid_password_rejected_without_state_change
    (now : Nat) (sid roomId password : String) (s : ServerState)
    (h : password ≠ "secret") :
    joinRoom now sid roomId password s = (s, [(sid, Msg.joinError "Invalid password")]) := by
  simp [joinRoom, h]

theorem C6_invalid_password_witness :
    joinRoom 3 "c" "r" "wrong" initialState =
      (initialState, [("c", Msg.joinError "Invalid password")]) :=
  C6_invalid_password_rejected_without_state_change 3 "c" "r" "wrong" initialState (by decide)

/-- Claim C10: an `audio-status` or `speaking-status` event from a
connection whose `socket.roomId` is unset emits no message to anyone and
changes no state; the handlers guard on `socket.roomId` and otherwise do
nothing. -/
theorem C10_status_events_dropped_when_unjoined
    (sid : String) (m1 m2 : Bool) (s : ServerState)
    (h : ∀ sock, findSocket s sid = some sock → sock.roomId = none) :
    audioStatusEvent sid m1 s = (s, []) ∧ speakingStatusEvent sid m2 s = (s, []) := by
  constructor
  · unfold audioStatusEvent
    cases hf : findSocket s sid with
    | none => rfl
    | some sock => simp [h sock hf, truthyRoom]
  · unfold speakingStatusEvent
    cases hf : findSocket s sid with
    | none => rfl
    | some sock => simp [h sock hf, truthyRoom]

theorem C10_status_events_witness :
    audioStatusEvent "c" true (connectEvent 0 "c" initialState) =
        (connectEvent 0 "c" initialState, []) ∧
      speakingStatusEvent "c" false (connectEvent 0 "c" initialState) =
        (connectEvent 0 "c" initialState, []) :=
  C10_status_events_dropped_when_unjoined "c" true false (connectEvent 0 "c" initialState)
    (by decide)

/-- Claim C9: neither an explicit `leave-room` nor a transport
`disconnect` ever removes a room from the Room Store: the leave path only
writes through `updateRoomActivity`, so every room id stays in
`rooms:active` and its hash stays present even when the written count is
zero. -/
theorem C9_leave_path_never_removes_rooms (now : Nat) (sid : String) (s : ServerState) :
    ((leaveRoom now sid s).1.redis.roomsList = s.redis.roomsList ∧
      ∀ r, (getRoom (leaveRoom now sid s).1.redis r).isSome =
        (getRoom s.redis r).isSome) ∧
    ((disconnectEvent now sid s).1.redis.roomsList = s.redis.roomsList ∧
      ∀ r, (getRoom (disconnectEvent now sid s).1.redis r).isSome =
        (getRoom s.redis r).isSome) :=
  ⟨handleUserLeave_keeps_rooms now sid s,
   handleUserLeave_keeps_rooms now sid
     { s with ioRooms := s.ioRooms.filter (fun p => p.2 ≠ sid) }⟩

/-- Claim C4 fails at `createRoom`: the room is stored with
`isActive = true` while `userCount = 0`, so the flag does not equal the
predicate `userCount > 0` after that operation. -/
theorem C4_counterexample_createRoom_flag :
    (createRoom 0 "r" none initialState.redis).1.isActive = true ∧
      (createRoom 0 "r" none initialState.redis).1.userCount = 0 ∧
      getRoom (createRoom 0 "r" none initialState.redis).2 "r" =
        some (createRoom 0 "r" none initialState.redis).1 := by
  refine ⟨by decide, by decide, by decide⟩

/-- Claim C4 as amended: after a successful `updateRoomActivity` the
stored flag of the updated room equals `userCount > 0`, while `createRoom`
initialises the stored room with `isActive = true` and `userCount = 0`
(the derived-flag equation therefore holds only from the first
`updateRoomActivity` on). -/
theorem C4_active_flag_contract :
    (∀ (now : Nat) (roomId : String) (c : Int) (rs : RedisState),
      roomId ∈ rs.roomsList →
        (getRoom ((updateRoomActivity now roomId c rs).1) roomId).all
          (fun rd => rd.isActive = decide (rd.userCount > 0)) = true) ∧
    (∀ (now : Nat) (roomId : String) (cb : Option String) (rs : RedisState),
      (createRoom now roomId cb rs).1.isActive = true ∧
        (createRoom now roomId cb rs).1.userCount = 0 ∧
        getRoom (createRoom now roomId cb rs).2 roomId =
          some (createRoom now roomId cb rs).1) := by
  constructor
  · intro now roomId c rs h
    rw [(updateRoomActivity_of_mem now roomId c rs h).2 roomId, if_pos rfl]
    cases getRoom rs roomId <;> simp
  · intro now roomId cb rs
    refine ⟨rfl, rfl, ?_⟩
    simp [createRoom, getRoom, lookupA_setA]

theorem C4_active_flag_witness :
    (getRoom ((updateRoomActivity 7 "r" 3 (singleRoomStore "r" 0 0)).1) "r").all
        (fun rd => rd.isActive = decide (rd.userCount > 0)) = true ∧
      (createRoom 7 "q" none initialState.redis).1.isActive = true :=
  ⟨C4_active_flag_contract.1 7 "r" 3 (singleRoomStore "r" 0 0) (by decide),
   (C4_active_flag_contract.2 7 "q" none initialState.redis).1⟩

/-- Claim C8: over a coherent store (an id is in `rooms:active` exactly
when its room hash exists — the only stores `createRoom` / `removeRoom`
produce), `updateRoomActivity` returns `false` exactly when the room no
longer exists and then writes nothing; when the room exists it returns
`true` having set `userCount`, refreshed `lastActivity` and recomputed
`isActive` as `userCount > 0`, keeping the other fields. -/
theorem C8_updateActivity_contract
    (now : Nat) (roomId : String) (c : Int) (rs : RedisState)
    (hcoh : ∀ r, r ∈ rs.roomsList ↔ (getRoom rs r).isSome) :
    ((updateRoomActivity now roomId c rs).2 = false ↔ getRoom rs roomId = none) ∧
      (getRoom rs roomId = none → (updateRoomActivity now roomId c rs).1 = rs) ∧
      (∀ rd, getRoom rs roomId = some rd →
        (updateRoomActivity now roomId c rs).2 = true ∧
          getRoom ((updateRoomActivity now roomId c rs).1) roomId =
            some { rd with userCount := c, lastActivity := now
                           isActive := decide (c > 0) }) := by
  by_cases h : roomId ∈ rs.roomsList
  · have hsome : (getRoom rs roomId).isSome := (hcoh roomId).1 h
    obtain ⟨u, hu⟩ := Option.isSome_iff_exists.1 hsome
    refine ⟨?_, ?_, ?_⟩
    · rw [(updateRoomActivity_of_mem now roomId c rs h).1]
      simp [hu]
    · intro hnone; rw [hu] at hnone; cases hnone
    · intro rd hrd
      refine ⟨(updateRoomActivity_of_mem now roomId c rs h).1, ?_⟩
      rw [(updateRoomActivity_of_mem now roomId c rs h).2 roomId, if_pos rfl, hrd]
      rfl
  · have hnone : getRoom rs roomId = none := by
      cases hg : getRoom rs roomId with
      | none => rfl
      | some u => exact absurd ((hcoh roomId).2 (by simp [hg])) h
    rw [updateRoomActivity_of_not_mem now roomId c rs h]
    exact ⟨by simp [hnone], fun _ => rfl, fun rd hrd => by rw [hnone] at hrd; cases hrd⟩

theorem singleRoomStore_coherent (roomId : String) (c : Int) (la : Nat) :
    ∀ r, r ∈ (singleRoomStore roomId c la).roomsList ↔
      (getRoom (singleRoomStore roomId c la) r).isSome := by
  intro r
  by_cases h : roomId = r <;> simp [singleRoomStore, getRoom, lookupA, h, eq_comm]

theorem C8_updateActivity_witness :
    (updateRoomActivity 7 "r" 3 (singleRoomStore "r" 2 1)).2 = true ∧
      getRoom ((updateRoomActivity 7 "r" 3 (singleRoomStore "r" 2 1)).1) "r" =
        some { userCount := 3, createdAt := 0, lastActivity := 7
               createdBy := none, isActive := true } :=
  (C8_updateActivity_contract 7 "r" 3 (singleRoomStore "r" 2 1)
      (singleRoomStore_coherent "r" 2 1)).2.2
    { userCount := 2, createdAt := 0, lastActivity := 1
      createdBy := none, isActive := true } (by decide)

theorem lookupA_mem {α : Type} (l : List (String × α)) (k : String) (v : α)
    (h : lookupA l k = some v) : (k, v) ∈ l := by
  induction l with
  | nil => cases h
  | cons p t ih =>
    obtain ⟨k0, v0⟩ := p
    by_cases h0 : k0 = k
    · subst h0
      simp [lookupA] at h
      subst h
      exact List.mem_cons_self _ _
    · simp [lookupA, h0] at h
      exact List.mem_cons_of_mem _ (ih h)

theorem mem_membersOf (l : List (String × String)) (room c : String) :
    c ∈ membersOf l room ↔ (room, c) ∈ l := by
  unfold membersOf
  rw [List.mem_filterMap]
  constructor
  · rintro ⟨⟨r0, c0⟩, hmem, heq⟩
    by_cases h : r0 = room
    · subst h
      simp at heq
      subst heq
      exact hmem
    · simp [h] at heq
  · intro hmem
    exact ⟨(room, c), hmem, by simp⟩

theorem findSocket_modifySocket (sid : String) (f : SocketState → SocketState)
    (l : List SocketState) (hf : ∀ sk, (f sk).sid = sk.sid) :
    (modifySocket sid f l).find? (fun sk => sk.sid = sid) =
      (l.find? (fun sk => sk.sid = sid)).map f := by
  induction l with
  | nil => rfl
  | cons sk t ih =>
    by_cases h : sk.sid = sid
    · simp [modifySocket, List.find?, h, hf]
    · simp [modifySocket, List.find?, h, ih]

theorem delA_delA {α : Type} (l : List (String × α)) (k : String) :
    delA (delA l k) k = delA l k := by
  simp [delA, List.filter_filter]

theorem nonnegStore_of_all (rs : RedisState)
    (h : rs.roomHash.all (fun p => decide (0 ≤ p.2.userCount)) = true) :
    ∀ r rd, getRoom rs r = some rd → 0 ≤ rd.userCount := by
  intro r rd hget
  have hm : (r, rd) ∈ rs.roomHash := lookupA_mem _ _ _ hget
  have := (List.all_eq_true.1 h) _ hm
  exact of_decide_eq_true this

/-- A trace in which connection `c` joins the socket.io room named `b` —
the id of another live connection — via a perfectly ordinary
`join-room`. -/
def collisionTrace : List GEvent :=
  [GEvent.connect 0 "a", GEvent.connect 1 "b", GEvent.connect 2 "c",
   GEvent.joinEv 3 "c" "b" "secret"]

/-- Claim C3 fails as stated: the relay handlers address the socket.io
ROOM named `targetUserId`, not the single connection, so after another
connection joins a chat room whose name equals B's connection id, an
offer aimed at B is also delivered to that connection. -/
theorem C3_counterexample_relay_third_party :
    (findSocket (grun collisionTrace initialState) "b").isSome = true ∧
      ("c", Msg.offerMsg "a" "P") ∈
        (relayEvent RelayKind.offerKind "a" "b" "P" (grun collisionTrace initialState)).2 ∧
      ("c" : String) ≠ "b" := by
  refine ⟨by decide, by decide, by decide⟩

/-- Claim C3 as amended: provided no connection has joined a socket.io
room whose name equals B's connection id (so the room named B contains at
most B itself, as is the case whenever chat-room names avoid connection
ids), a relay of any of the three kinds changes no state, delivers the
payload only to B — never to the sender or anyone else — only while B is
live, and when B is not among the live connections it is dropped with no
message (in particular no error) emitted to anyone. -/
theorem C3_relay_contract (k : RelayKind) (a b payload : String) (s : ServerState)
    (hroom : ∀ c, c ∈ membersOf s.ioRooms b → c = b)
    (hlive : ∀ p, p ∈ s.ioRooms → p.2 ∈ socketIds s) :
    (relayEvent k a b payload s).1 = s ∧
      (∀ e, e ∈ (relayEvent k a b payload s).2 →
        e.1 = b ∧ e.1 ≠ a ∧ b ∈ socketIds s ∧ e.2 = relayMsg k a payload) ∧
      (b ∉ socketIds s → (relayEvent k a b payload s).2 = []) := by
  have hmem : ∀ e : Emit, e ∈ (relayEvent k a b payload s).2 →
      e.1 = b ∧ e.1 ≠ a ∧ b ∈ socketIds s ∧ e.2 = relayMsg k a payload := by
    intro e he
    simp only [relayEvent, List.mem_map] at he
    obtain ⟨c, hc, rfl⟩ := he
    simp only [socketTo, List.mem_filter] at hc
    obtain ⟨hcm, hca⟩ := hc
    have hcb : c = b := hroom c hcm
    have hcs : c ∈ socketIds s :=
      hlive (b, c) ((mem_membersOf s.ioRooms b c).1 hcm)
    exact ⟨hcb, by simpa using hca, hcb ▸ hcs, rfl⟩
  refine ⟨rfl, hmem, ?_⟩
  intro hnb
  rcases hh : (relayEvent k a b payload s).2 with _ | ⟨e, t⟩
  · rfl
  · exact absurd (hmem e (by rw [hh]; exact List.mem_cons_self _ _)).2.2.1 hnb

theorem C3_relay_witness :
    (relayEvent RelayKind.offerKind "a" "b" "P"
        (grun [GEvent.connect 0 "a", GEvent.connect 1 "b"] initialState)).1 =
      grun [GEvent.connect 0 "a", GEvent.connect 1 "b"] initialState ∧
    ("b", Msg.offerMsg "a" "P").1 = "b" ∧
      ("b", Msg.offerMsg "a" "P").1 ≠ "a" ∧
      "b" ∈ socketIds (grun [GEvent.connect 0 "a", GEvent.connect 1 "b"] initialState) ∧
      ("b", Msg.offerMsg "a" "P").2 = relayMsg RelayKind.offerKind "a" "P" :=
  ⟨(C3_relay_contract RelayKind.offerKind "a" "b" "P"
      (grun [GEvent.connect 0 "a", GEvent.connect 1 "b"] initialState)
      (by decide) (by decide)).1,
   (C3_relay_contract RelayKind.offerKind "a" "b" "P"
      (grun [GEvent.connect 0 "a", GEvent.connect 1 "b"] initialState)
      (by decide) (by decide)).2.1 ("b", Msg.offerMsg "a" "P") (by decide)⟩

/-- A trace that leaves the store containing the room with the empty-string
id (creatable through an ordinary `join-room`, which has no falsy-id
guard), plus a second, unjoined connection. -/
def emptyIdTrace : List GEvent :=
  [GEvent.connect 0 "c1", GEvent.joinEv 1 "c1" "" "secret", GEvent.connect 2 "c2"]

/-- Claim C7 fails as stated: the handler guards `if (!roomId)` before the
store lookup, and the empty string is falsy, so a `reconnect-to-room`
naming the empty-string room is rejected with a reconnect error even
though that room is present in the Room Store (the claim requires the
success path for every room still in the store). -/
theorem C7_counterexample_empty_room_id :
    (getRoom (grun emptyIdTrace initialState).redis "").isSome = true ∧
      reconnectToRoom 9 "c2" "" (grun emptyIdTrace initialState) =
        (grun emptyIdTrace initialState,
         [("c2", Msg.reconnectError "Room ID required for reconnection")]) := by
  refine ⟨by decide, by decide⟩

/-- Claim C7 as amended: a falsy (empty) room id is rejected with a
reconnect error and no state change; a nonempty room id absent from the
Room Store is rejected with `Room no longer exists` and no state change;
and for a nonempty room id still in the store, the handler rejoins the
socket.io room, re-derives the count from the gateway's live room
membership, writes it through `updateRoomActivity`, marks the connection
Joined (`socket.roomId` set), replies `reconnected-to-room` with that
count, and broadcasts `user-reconnected` to the other room members. -/
theorem C7_reconnect_contract (now : Nat) (sid roomId : String) (s : ServerState) :
    (roomId = "" →
      reconnectToRoom now sid roomId s =
        (s, [(sid, Msg.reconnectError "Room ID required for reconnection")])) ∧
    (roomId ≠ "" → getRoom s.redis roomId = none →
      reconnectToRoom now sid roomId s =
        (s, [(sid, Msg.reconnectError "Room no longer exists")])) ∧
    (∀ rd sock, roomId ≠ "" → getRoom s.redis roomId = some rd →
      findSocket s sid = some sock →
      (reconnectToRoom now sid roomId s).1.redis =
          (updateRoomActivity now roomId
            ((membersOf (joinIoRoom s.ioRooms roomId sid) roomId).length : Int) s.redis).1 ∧
        (reconnectToRoom now sid roomId s).1.ioRooms = joinIoRoom s.ioRooms roomId sid ∧
        findSocket (reconnectToRoom now sid roomId s).1 sid =
          some { sock with roomId := some roomId } ∧
        (reconnectToRoom now sid roomId s).2 =
          (sid, Msg.reconnectedToRoom roomId
              ((membersOf (joinIoRoom s.ioRooms roomId sid) roomId).length : Int))
            :: (socketTo (joinIoRoom s.ioRooms roomId sid) roomId sid).map
                 (fun c => (c, Msg.userReconnected sid
                   ((membersOf (joinIoRoom s.ioRooms roomId sid) roomId).length : Int)))) := by
  refine ⟨?_, ?_, ?_⟩
  · intro h
    simp [reconnectToRoom, h]
  · intro h hnone
    simp [reconnectToRoom, h, hnone]
  · intro rd sock h hsome hsock
    have hfind : findSocket (reconnectToRoom now sid roomId s).1 sid =
        some { sock with roomId := some roomId } := by
      simp only [reconnectToRoom, if_neg h, hsome]
      unfold findSocket
      rw [show (modifySocket sid (fun sk => { sk with roomId := some roomId })
            s.sockets).find? (fun sk => sk.sid = sid) =
          ((s.sockets.find? (fun sk => sk.sid = sid)).map
            (fun sk => { sk with roomId := some roomId })) from
        findSocket_modifySocket sid _ s.sockets (fun sk => rfl)]
      rw [show s.sockets.find? (fun sk => sk.sid = sid) = some sock from hsock]
      rfl
    refine ⟨?_, ?_, hfind, ?_⟩
    · simp [reconnectToRoom, h, hsome]
    · simp [reconnectToRoom, h, hsome]
    · simp [reconnectToRoom, h, hsome]

theorem C7_reconnect_witness :
    reconnectToRoom 9 "b" "q" (grun [GEvent.connect 0 "a", GEvent.connect 1 "b",
        GEvent.joinEv 2 "a" "q" "secret"] initialState) =
      ((reconnectToRoom 9 "b" "q" (grun [GEvent.connect 0 "a", GEvent.connect 1 "b",
          GEvent.joinEv 2 "a" "q" "secret"] initialState)).1,
       [("b", Msg.reconnectedToRoom "q" 2), ("a", Msg.userReconnected "b" 2)]) ∧
      findSocket (reconnectToRoom 9 "b" "q" (grun [GEvent.connect 0 "a", GEvent.connect 1 "b",
          GEvent.joinEv 2 "a" "q" "secret"] initialState)).1 "b" =
        some { sid := "b", roomId := some "q" } := by
  have h := (C7_reconnect_contract 9 "b" "q"
      (grun [GEvent.connect 0 "a", GEvent.connect 1 "b",
        GEvent.joinEv 2 "a" "q" "secret"] initialState)).2.2
    { userCount := 1, createdAt := 2, lastActivity := 2, createdBy := none, isActive := true }
    { sid := "b", roomId := none } (by decide) (by decide) (by decide)
  refine ⟨?_, h.2.2.1⟩
  have he := h.2.2.2
  rw [show (reconnectToRoom 9 "b" "q" (grun [GEvent.connect 0 "a", GEvent.connect 1 "b",
      GEvent.joinEv 2 "a" "q" "secret"] initialState)) =
    ((reconnectToRoom 9 "b" "q" (grun [GEvent.connect 0 "a", GEvent.connect 1 "b",
      GEvent.joinEv 2 "a" "q" "secret"] initialState)).1,
     (reconnectToRoom 9 "b" "q" (grun [GEvent.connect 0 "a", GEvent.connect 1 "b",
      GEvent.joinEv 2 "a" "q" "secret"] initialState)).2) from rfl]
  rw [he]
  refine congrArg _ (congrArg _ ?_)
  decide

/-- Iterated `leave-room` handling (any sequence of leave calls, each with
its own clock). -/
def leaveFold (l : List (Nat × String)) (s : ServerState) : ServerState :=
  l.foldl (fun st p => (leaveRoom p.1 p.2 st).1) s

theorem nonneg_updateRoomActivity (now : Nat) (roomId : String) (c : Int)
    (rs : RedisState) (hc : 0 ≤ c)
    (h : ∀ r rd, getRoom rs r = some rd → 0 ≤ rd.userCount) :
    ∀ r rd, getRoom ((updateRoomActivity now roomId c rs).1) r = some rd →
      0 ≤ rd.userCount := by
  intro r rd hget
  by_cases hm : roomId ∈ rs.roomsList
  · rw [(updateRoomActivity_of_mem now roomId c rs hm).2 r] at hget
    by_cases hrr : roomId = r
    · rw [if_pos hrr] at hget
      cases hg : getRoom rs r with
      | none => rw [hg] at hget; cases hget
      | some rd0 =>
        rw [hg] at hget
        have hrd :
            ({ rd0 with userCount := c, lastActivity := now, isActive := decide (c > 0) } :
              StoredRoom) = rd := by
          simpa using hget
        rw [← hrd]
        exact hc
    · rw [if_neg hrr] at hget
      exact h r rd hget
  · rw [updateRoomActivity_of_not_mem now roomId c rs hm] at hget
    exact h r rd hget

theorem handleUserLeave_redis_eq (now : Nat) (sid : String) (s : ServerState) :
    (handleUserLeave now sid s).1.redis = s.redis ∨
      ∃ roomId sock, findSocket s sid = some sock ∧ sock.roomId = some roomId ∧
        roomId ≠ "" ∧
        (handleUserLeave now sid s).1.redis =
          (updateRoomActivity now roomId
            (max 0 (((membersOf s.ioRooms roomId).length : Int) - 1)) s.redis).1 := by
  unfold handleUserLeave
  cases hf : findSocket s sid with
  | none => exact Or.inl rfl
  | some sock =>
    dsimp only
    cases hr : sock.roomId with
    | none => exact Or.inl rfl
    | some roomId =>
      by_cases he : roomId = ""
      · left; simp [truthyRoom, he]
      · right
        refine ⟨roomId, sock, rfl, hr, he, ?_⟩
        simp [truthyRoom, he]

theorem leave_preserves_nonneg (now : Nat) (sid : String) (s : ServerState)
    (h : ∀ r rd, getRoom s.redis r = some rd → 0 ≤ rd.userCount) :
    ∀ r rd, getRoom (leaveRoom now sid s).1.redis r = some rd → 0 ≤ rd.userCount := by
  rcases handleUserLeave_redis_eq now sid s with heq | ⟨roomId, sock, -, -, -, heq⟩
  · rw [show (leaveRoom now sid s).1.redis = (handleUserLeave now sid s).1.redis from rfl,
      heq]
    exact h
  · rw [show (leaveRoom now sid s).1.redis = (handleUserLeave now sid s).1.redis from rfl,
      heq]
    exact nonneg_updateRoomActivity now roomId _ s.redis (le_max_left 0 _) h

theorem leaveFold_preserves_nonneg (l : List (Nat × String)) :
    ∀ s : ServerState, (∀ r rd, getRoom s.redis r = some rd → 0 ≤ rd.userCount) →
      ∀ r rd, getRoom (leaveFold l s).redis r = some rd → 0 ≤ rd.userCount := by
  induction l with
  | nil => intro s h; exact h
  | cons p t ih =>
    intro s h
    simp only [leaveFold, List.foldl_cons]
    exact ih (leaveRoom p.1 p.2 s).1 (leave_preserves_nonneg p.1 p.2 s h)

/-- Claim C5 fails in one respect: `handleUserLeave` unconditionally
deletes the connection's `activeConnections` entry, so `leave-room` from a
connected but never-joined connection is not a no-op — the entry
disappears (observable through the health endpoint's connection count). -/
theorem C5_counterexample_unjoined_leave_mutates :
    findSocket (connectEvent 0 "c1" initialState) "c1" =
        some { sid := "c1", roomId := none } ∧
      (leaveRoom 5 "c1" (connectEvent 0 "c1" initialState)).1 ≠
        connectEvent 0 "c1" initialState := by
  refine ⟨by decide, by decide⟩

/-- Claim C5 as amended: (1) a second `leave-room` after a successful one
is a complete no-op — same state, no emissions, hence exactly one
`user-left` broadcast across both calls; (2) no sequence of leave calls
ever writes a negative `userCount` into the Room Store, since the handler
writes `max 0 (members - 1)`; (3) `leave-room` from a connection that is
not Joined emits nothing and changes nothing except deleting the
connection's `activeConnections` entry. -/
theorem C5_leave_contract :
    (∀ (now1 now2 : Nat) (sid r : String) (sock : SocketState) (s : ServerState),
      findSocket s sid = some sock → sock.roomId = some r → r ≠ "" →
        (leaveRoom now1 sid s).2 =
            (socketTo s.ioRooms r sid).map (fun c =>
              (c, Msg.userLeft sid (max 0 (((membersOf s.ioRooms r).length : Int) - 1)))) ∧
          leaveRoom now2 sid ((leaveRoom now1 sid s).1) = ((leaveRoom now1 sid s).1, [])) ∧
    (∀ (l : List (Nat × String)) (s : ServerState) (r : String) (rd : StoredRoom),
      (∀ r' rd', getRoom s.redis r' = some rd' → 0 ≤ rd'.userCount) →
        getRoom (leaveFold l s).redis r = some rd → 0 ≤ rd.userCount) ∧
    (∀ (now : Nat) (sid : String) (s : ServerState),
      (∀ sock, findSocket s sid = some sock → sock.roomId = none) →
        leaveRoom now sid s =
          ({ s with activeConnections := delA s.activeConnections sid }, [])) := by
  refine ⟨?_, ?_, ?_⟩
  · intro now1 now2 sid r sock s hsock hr he
    constructor
    · simp [leaveRoom, handleUserLeave, hsock, hr, truthyRoom, he]
    · have hs1sockets : (leaveRoom now1 sid s).1.sockets =
          modifySocket sid (fun sk => { sk with roomId := none }) s.sockets := by
        simp [leaveRoom, handleUserLeave, hsock, hr, truthyRoom, he]
      have hs1sock : findSocket (leaveRoom now1 sid s).1 sid =
          some { sock with roomId := none } := by
        rw [show findSocket (leaveRoom now1 sid s).1 sid =
            ((leaveRoom now1 sid s).1.sockets.find? (fun sk => sk.sid = sid)) from rfl]
        rw [hs1sockets]
        rw [findSocket_modifySocket sid (fun sk => { sk with roomId := none })
          s.sockets (fun sk => rfl)]
        rw [show s.sockets.find? (fun sk => sk.sid = sid) = some sock from hsock]
        rfl
      have hacc : (leaveRoom now1 sid s).1.activeConnections =
          delA s.activeConnections sid := by
        simp [leaveRoom, handleUserLeave, hsock, hr, truthyRoom, he]
      generalize hgen : (leaveRoom now1 sid s).1 = s1 at hs1sock hacc ⊢
      have hstep : leaveRoom now2 sid s1 =
          ({ s1 with activeConnections := delA s1.activeConnections sid }, []) := by
        simp [leaveRoom, handleUserLeave, hs1sock, truthyRoom]
      rw [hstep, hacc, delA_delA, ← hacc]
  · intro l s r rd h hget
    exact leaveFold_preserves_nonneg l s h r rd hget
  · intro now sid s h
    unfold leaveRoom handleUserLeave
    cases hf : findSocket s sid with
    | none => rfl
    | some sock => simp [h sock hf, truthyRoom]

theorem C5_leave_witness :
    leaveRoom 3 "c" ((leaveRoom 2 "c"
        (grun [GEvent.connect 0 "c", GEvent.joinEv 1 "c" "r" "secret"] initialState)).1) =
      ((leaveRoom 2 "c"
        (grun [GEvent.connect 0 "c", GEvent.joinEv 1 "c" "r" "secret"] initialState)).1, []) ∧
    (0 : Int) ≤ ({ userCount := 0, createdAt := 1, lastActivity := 2
                   createdBy := none, isActive := false } : StoredRoom).userCount ∧
    leaveRoom 1 "x" (connectEvent 0 "x" initialState) =
      ({ connectEvent 0 "x" initialState with
          activeConnections := delA (connectEvent 0 "x" initialState).activeConnections "x" },
       []) :=
  ⟨(C5_leave_contract.1 2 3 "c" "r" { sid := "c", roomId := some "r" }
      (grun [GEvent.connect 0 "c", GEvent.joinEv 1 "c" "r" "secret"] initialState)
      (by decide) rfl (by decide)).2,
   C5_leave_contract.2.1 [(2, "c")]
      (grun [GEvent.connect 0 "c", GEvent.joinEv 1 "c" "r" "secret"] initialState)
      "r" { userCount := 0, createdAt := 1, lastActivity := 2
            createdBy := none, isActive := false }
      (nonnegStore_of_all _ (by decide)) (by decide),
   C5_leave_contract.2.2 1 "x" (connectEvent 0 "x" initialState) (by decide)⟩

/-- Claim C2 fails as stated: the `join-room` handler increments the
stored count without checking whether the connection is already joined
(and socket.io's `join` is idempotent), so a connection that sends
`join-room` twice for the same room leaves the store at `userCount = 2`
while only one connection is in the Joined state for the room. -/
theorem C2_counterexample_double_join :
    (getRoom (grun [GEvent.connect 0 "c", GEvent.joinEv 1 "c" "r" "secret",
        GEvent.joinEv 2 "c" "r" "secret"] initialState).redis "r").map
      (fun rd => rd.userCount) = some 2 ∧
    (joinedSids (grun [GEvent.connect 0 "c", GEvent.joinEv 1 "c" "r" "secret",
        GEvent.joinEv 2 "c" "r" "secret"] initialState).sockets "r").length = 1 := by
  refine ⟨by decide, by decide⟩

/-- The ids of a socket list. -/
def sidsOf (l : List SocketState) : List String :=
  l.map (fun sk => sk.sid)

theorem socketIds_eq_sidsOf (s : ServerState) : socketIds s = sidsOf s.sockets := rfl

theorem membersOf_append (l1 l2 : List (String × String)) (r : String) :
    membersOf (l1 ++ l2) r = membersOf l1 r ++ membersOf l2 r := by
  simp [membersOf, List.filterMap_append]

theorem membersOf_single (a b r : String) :
    membersOf [(a, b)] r = if a = r then [b] else [] := by
  by_cases h : a = r <;> simp [membersOf, h]

theorem membersOf_eq_filter_map (l : List (String × String)) (r : String) :
    membersOf l r = (l.filter (fun p => p.1 = r)).map Prod.snd := by
  induction l with
  | nil => rfl
  | cons p t ih =>
    obtain ⟨r0, c0⟩ := p
    by_cases h : r0 = r <;> simp [membersOf, h] at ih ⊢ <;> exact ih

theorem membersOf_filter_pair (l : List (String × String)) (room sid r : String) :
    membersOf (l.filter (fun p => p ≠ (room, sid))) r =
      if r = room then (membersOf l r).filter (fun c => c ≠ sid)
      else membersOf l r := by
  rw [membersOf_eq_filter_map, membersOf_eq_filter_map, List.filter_filter]
  by_cases hr : r = room
  · subst hr
    rw [if_pos rfl, List.filter_map, List.filter_filter]
    congr 1
    apply List.filter_congr
    intro p _
    obtain ⟨a, b⟩ := p
    by_cases h1 : a = r
    · subst h1
      by_cases h2 : b = sid <;> simp [h2, Function.comp]
    · simp [h1]
  · rw [if_neg hr]
    congr 1
    apply List.filter_congr
    intro p _
    obtain ⟨a, b⟩ := p
    by_cases h1 : a = r
    · subst h1
      have : (a, b) ≠ (room, sid) := by
        intro hh
        exact hr (congrArg Prod.fst hh)
      simp [this]
    · simp [h1]

theorem joinedSids_append_none (l : List SocketState) (sid r : String) :
    joinedSids (l ++ [{ sid := sid, roomId := none }]) r = joinedSids l r := by
  simp [joinedSids, List.filterMap_append]

theorem sidsOf_modifySocket (sid : String) (f : SocketState → SocketState)
    (l : List SocketState) (hf : ∀ sk, (f sk).sid = sk.sid) :
    sidsOf (modifySocket sid f l) = sidsOf l := by
  induction l with
  | nil => rfl
  | cons sk t ih =>
    by_cases h : sk.sid = sid <;> simp [modifySocket, sidsOf, h, hf] at ih ⊢ <;>
      exact ih

theorem joinedSids_modify_none (l : List SocketState) (sid r : String) :
    joinedSids (modifySocket sid (fun sk => { sk with roomId := none }) l) r =
      (joinedSids l r).filter (fun c => c ≠ sid) := by
  induction l with
  | nil => rfl
  | cons sk t ih =>
    by_cases h : sk.sid = sid
    · subst h
      cases hr : sk.roomId with
      | none => simp [modifySocket, joinedSids, hr] at ih ⊢; exact ih
      | some r0 =>
        by_cases h0 : r0 = r
        · subst h0
          simp [modifySocket, joinedSids, hr] at ih ⊢
          exact ih
        · simp [modifySocket, joinedSids, hr, h0] at ih ⊢
          exact ih
    · cases hr : sk.roomId with
      | none => simp [modifySocket, joinedSids, hr, h] at ih ⊢; exact ih
      | some r0 =>
        by_cases h0 : r0 = r
        · subst h0
          simp [modifySocket, joinedSids, hr, h] at ih ⊢
          exact ih
        · simp [modifySocket, joinedSids, hr, h, h0] at ih ⊢
          exact ih


theorem sidsOf_cons (sk : SocketState) (t : List SocketState) :
    sidsOf (sk :: t) = sk.sid :: sidsOf t := rfl

theorem modifySocket_cons (sid : String) (f : SocketState → SocketState)
    (sk : SocketState) (t : List SocketState) :
    modifySocket sid f (sk :: t) =
      (if sk.sid = sid then f sk else sk) :: modifySocket sid f t := rfl

theorem modifySocket_of_not_mem (sid : String) (f : SocketState → SocketState)
    (l : List SocketState) (h : sid ∉ sidsOf l) :
    modifySocket sid f l = l := by
  induction l with
  | nil => rfl
  | cons sk t ih =>
    rw [sidsOf_cons, List.mem_cons, not_or] at h
    rw [modifySocket_cons, if_neg (fun hh => h.1 hh.symm), ih h.2]

theorem joinedSids_cons (sk : SocketState) (t : List SocketState) (r : String) :
    joinedSids (sk :: t) r =
      (if sk.roomId = some r then [sk.sid] else []) ++ joinedSids t r := by
  by_cases h : sk.roomId = some r <;> simp [joinedSids, h]

theorem joinedSids_modify_some_other (l : List SocketState) (sid roomId r : String)
    (hall : ∀ sk ∈ l, sk.sid = sid → sk.roomId = none) (hne : r ≠ roomId) :
    joinedSids (modifySocket sid (fun sk => { sk with roomId := some roomId }) l) r =
      joinedSids l r := by
  have hner : ¬ (some roomId = some r) := fun hh =>
    hne (Option.some.injEq roomId r ▸ hh).symm
  induction l with
  | nil => rfl
  | cons sk t ih =>
    have iht := ih (fun sk' h' e => hall sk' (List.mem_cons_of_mem _ h') e)
    rw [modifySocket_cons]
    by_cases h : sk.sid = sid
    · have hnone : sk.roomId = none := hall sk (List.mem_cons_self _ _) h
      rw [if_pos h, joinedSids_cons, joinedSids_cons]
      simp only [hnone]
      simp only [if_neg hner,
        if_neg (fun hh : (none : Option String) = some r => by cases hh)]
      simpa using iht
    · rw [if_neg h, joinedSids_cons, joinedSids_cons, iht]

theorem joinedSids_modify_some_self (l : List SocketState) (sid roomId : String)
    (hall : ∀ sk ∈ l, sk.sid = sid → sk.roomId = none)
    (hnd : (sidsOf l).Nodup) (hmem : sid ∈ sidsOf l) :
    (joinedSids (modifySocket sid (fun sk => { sk with roomId := some roomId }) l)
        roomId).Perm
      (sid :: joinedSids l roomId) := by
  induction l with
  | nil => cases hmem
  | cons sk t ih =>
    rw [sidsOf_cons] at hnd hmem
    have hnd1 := (List.nodup_cons.1 hnd).1
    have hnd2 := (List.nodup_cons.1 hnd).2
    rw [modifySocket_cons]
    by_cases h : sk.sid = sid
    · have hnone : sk.roomId = none := hall sk (List.mem_cons_self _ _) h
      have hnotin : sid ∉ sidsOf t := by rw [← h]; exact hnd1
      rw [if_pos h, modifySocket_of_not_mem sid _ t hnotin]
      rw [joinedSids_cons, joinedSids_cons]
      simp [hnone, h]
    · have hmem' : sid ∈ sidsOf t := by
        rcases List.mem_cons.1 hmem with h1 | h1
        · exact absurd h1.symm h
        · exact h1
      have iht := ih (fun sk' h' e => hall sk' (List.mem_cons_of_mem _ h') e) hnd2 hmem'
      rw [if_neg h, joinedSids_cons, joinedSids_cons]
      by_cases h0 : sk.roomId = some roomId
      · rw [if_pos h0]
        exact (iht.cons sk.sid).trans
          (List.Perm.swap sid sk.sid (joinedSids t roomId))
      · rw [if_neg h0]
        simpa using iht

theorem find_sid_eq (l : List SocketState) (sid : String) (sock : SocketState)
    (h : l.find? (fun sk => sk.sid = sid) = some sock) : sock.sid = sid ∧ sock ∈ l := by
  induction l with
  | nil => cases h
  | cons sk t ih =>
    by_cases h0 : sk.sid = sid
    · rw [List.find?_cons_of_pos _ (by simpa using h0)] at h
      cases h
      exact ⟨h0, List.mem_cons_self _ _⟩
    · rw [List.find?_cons_of_neg _ (by simpa using h0)] at h
      obtain ⟨ha, hb⟩ := ih h
      exact ⟨ha, List.mem_cons_of_mem _ hb⟩

theorem findSocket_eq (s : ServerState) (sid : String) (sock : SocketState)
    (h : findSocket s sid = some sock) : sock.sid = sid ∧ sock ∈ s.sockets :=
  find_sid_eq s.sockets sid sock h

theorem find_unique (l : List SocketState) (sid : String) (sock : SocketState)
    (hnd : (sidsOf l).Nodup) (hf : l.find? (fun sk => sk.sid = sid) = some sock) :
    ∀ sk ∈ l, sk.sid = sid → sk = sock := by
  induction l with
  | nil => cases hf
  | cons sk0 t ih =>
    rw [sidsOf_cons] at hnd
    have hnd1 := (List.nodup_cons.1 hnd).1
    have hnd2 := (List.nodup_cons.1 hnd).2
    intro sk hmem he
    by_cases h0 : sk0.sid = sid
    · have hsock : sock = sk0 := by
        rw [List.find?_cons_of_pos _ (by simpa using h0)] at hf
        exact (Option.some.injEq _ _ ▸ hf).symm
      rcases List.mem_cons.1 hmem with h1 | h1
      · rw [h1, hsock]
      · exact absurd (show sk0.sid ∈ sidsOf t by
          rw [h0, ← he]; exact List.mem_map_of_mem _ h1) hnd1
    · rw [List.find?_cons_of_neg _ (by simpa using h0)] at hf
      rcases List.mem_cons.1 hmem with h1 | h1
      · exact absurd (h1 ▸ he) h0
      · exact ih hnd2 hf sk h1 he

theorem joinedSids_sublist (l : List SocketState) (r : String) :
    (joinedSids l r).Sublist (sidsOf l) := by
  induction l with
  | nil => exact List.Sublist.refl _
  | cons sk t ih =>
    rw [joinedSids_cons, sidsOf_cons]
    by_cases h : sk.roomId = some r
    · rw [if_pos h]
      exact ih.cons₂ sk.sid
    · rw [if_neg h]
      exact ih.cons sk.sid

theorem mem_joinedSids (l : List SocketState) (r c : String) :
    c ∈ joinedSids l r ↔ ∃ sk ∈ l, sk.sid = c ∧ sk.roomId = some r := by
  unfold joinedSids
  rw [List.mem_filterMap]
  constructor
  · rintro ⟨sk, hmem, heq⟩
    by_cases h : sk.roomId = some r
    · rw [if_pos h] at heq
      exact ⟨sk, hmem, Option.some.injEq _ _ ▸ heq, h⟩
    · rw [if_neg h] at heq
      cases heq
  · rintro ⟨sk, hmem, hc, hr⟩
    exact ⟨sk, hmem, by rw [if_pos hr, hc]⟩

theorem modifySocket_eq_map (sid : String) (f : SocketState → SocketState)
    (l : List SocketState) :
    modifySocket sid f l = l.map (fun sk => if sk.sid = sid then f sk else sk) := by
  induction l with
  | nil => rfl
  | cons sk t ih => rw [modifySocket_cons, List.map_cons, ih]

theorem mem_modifySocket (sid : String) (f : SocketState → SocketState)
    (l : List SocketState) (sk' : SocketState) :
    sk' ∈ modifySocket sid f l ↔
      ∃ sk ∈ l, sk' = if sk.sid = sid then f sk else sk := by
  rw [modifySocket_eq_map, List.mem_map]
  constructor
  · rintro ⟨sk, hm, he⟩
    exact ⟨sk, hm, he.symm⟩
  · rintro ⟨sk, hm, he⟩
    exact ⟨sk, hm, he.symm⟩

/-- The inductive invariant of a single gateway run under the presence
state machine: socket ids are unique; every joined room name is nonempty
and distinct from every connection id; for every such room name the
socket.io membership agrees (as a multiset) with the set of Joined
sockets; the stored `userCount` of every room equals the number of Joined
sockets; rooms absent from the store have no Joined sockets; and the store
is coherent (`rooms:active` matches the existing room hashes). -/
structure GInv (s : ServerState) : Prop where
  nodupSids : (sidsOf s.sockets).Nodup
  roomsOk : ∀ sk ∈ s.sockets, ∀ r, sk.roomId = some r →
    r ≠ "" ∧ r ∉ sidsOf s.sockets
  memPerm : ∀ r, r ∉ sidsOf s.sockets →
    (membersOf s.ioRooms r).Perm (joinedSids s.sockets r)
  cnt : ∀ r rd, getRoom s.redis r = some rd →
    rd.userCount = ((joinedSids s.sockets r).length : Int)
  cnt0 : ∀ r, getRoom s.redis r = none → joinedSids s.sockets r = []
  coh : ∀ r, r ∈ s.redis.roomsList ↔ (getRoom s.redis r).isSome

theorem ginv_initial : GInv initialState := by
  refine ⟨?_, ?_, ?_, ?_, ?_, ?_⟩
  · exact List.nodup_nil
  · intro sk hm; cases hm
  · intro r _; exact List.Perm.refl _
  · intro r rd h; cases h
  · intro r _; rfl
  · intro r; simp [initialState, getRoom, lookupA]

theorem connect_preserves_inv (now : Nat) (sid : String) (s : ServerState)
    (hp : preB s (GEvent.connect now sid) = true) (hi : GInv s) :
    GInv (connectEvent now sid s) := by
  have hp' := hp
  unfold preB at hp'
  rw [Bool.and_eq_true] at hp'
  have hfresh : sid ∉ sidsOf s.sockets :=
    of_decide_eq_true hp'.1
  have hnorm : ∀ sk ∈ s.sockets, sk.roomId ≠ some sid := by
    intro sk hm
    exact of_decide_eq_true ((List.all_eq_true.1 hp'.2) sk hm)
  have hsids : sidsOf (connectEvent now sid s).sockets = sidsOf s.sockets ++ [sid] := by
    simp [connectEvent, sidsOf]
  refine ⟨?_, ?_, ?_, ?_, ?_, ?_⟩
  · rw [hsids]
    exact (List.perm_append_singleton sid _).nodup_iff.2
      (List.nodup_cons.2 ⟨hfresh, hi.nodupSids⟩)
  · intro sk hm r hr
    rw [hsids]
    rcases List.mem_append.1 hm with hm0 | hm0
    · obtain ⟨h1, h2⟩ := hi.roomsOk sk hm0 r hr
      refine ⟨h1, ?_⟩
      rw [List.mem_append]
      rintro (hh | hh)
      · exact h2 hh
      · rcases List.mem_singleton.1 hh with rfl
        exact hnorm sk hm0 hr
    · rcases List.mem_singleton.1 hm0 with rfl
      cases hr
  · intro r hr
    rw [hsids, List.mem_append] at hr
    have hr1 : r ∉ sidsOf s.sockets := fun hh => hr (Or.inl hh)
    have hr2 : r ≠ sid := fun hh => hr (Or.inr (by simp [hh]))
    have hm : membersOf (connectEvent now sid s).ioRooms r = membersOf s.ioRooms r := by
      rw [show (connectEvent now sid s).ioRooms = s.ioRooms ++ [(sid, sid)] from rfl,
        membersOf_append, membersOf_single]
      rw [if_neg (fun hh => hr2 hh.symm)]
      simp
    have hj : joinedSids (connectEvent now sid s).sockets r = joinedSids s.sockets r := by
      rw [show (connectEvent now sid s).sockets =
        s.sockets ++ [{ sid := sid, roomId := none }] from rfl, joinedSids_append_none]
    rw [hm, hj]
    exact hi.memPerm r hr1
  · intro r rd h
    have hj : joinedSids (connectEvent now sid s).sockets r = joinedSids s.sockets r := by
      rw [show (connectEvent now sid s).sockets =
        s.sockets ++ [{ sid := sid, roomId := none }] from rfl, joinedSids_append_none]
    rw [hj]
    exact hi.cnt r rd h
  · intro r h
    have hj : joinedSids (connectEvent now sid s).sockets r = joinedSids s.sockets r := by
      rw [show (connectEvent now sid s).sockets =
        s.sockets ++ [{ sid := sid, roomId := none }] from rfl, joinedSids_append_none]
    rw [hj]
    exact hi.cnt0 r h
  · exact hi.coh

theorem ginv_after_join_core (now : Nat) (s : ServerState) (sid roomId : String)
    (redis1 : RedisState) (x : Int) (snew : ServerState)
    (hi : GInv s) (hne : roomId ≠ "") (hnotin : roomId ∉ sidsOf s.sockets)
    (hall : ∀ sk ∈ s.sockets, sk.sid = sid → sk.roomId = none)
    (hsidmem : sid ∈ sidsOf s.sockets)
    (hx : x = ((joinedSids s.sockets roomId).length : Int))
    (hupd : roomId ∈ redis1.roomsList)
    (hother : ∀ r, r ≠ roomId → getRoom redis1 r = getRoom s.redis r)
    (hself : (getRoom redis1 roomId).isSome = true)
    (hcoh1 : ∀ r, r ∈ redis1.roomsList ↔ (getRoom redis1 r).isSome)
    (hsnew : snew.redis = (updateRoomActivity now roomId (x + 1) redis1).1)
    (hsock : snew.sockets =
      modifySocket sid (fun sk => { sk with roomId := some roomId }) s.sockets)
    (hio : snew.ioRooms = s.ioRooms ++ [(roomId, sid)]) :
    GInv snew := by
  have hs : sidsOf snew.sockets = sidsOf s.sockets := by
    rw [hsock]
    exact sidsOf_modifySocket sid _ s.sockets (fun sk => rfl)
  have hjoined_other : ∀ r, r ≠ roomId →
      joinedSids snew.sockets r = joinedSids s.sockets r := by
    intro r hr
    rw [hsock]
    exact joinedSids_modify_some_other s.sockets sid roomId r hall hr
  have hjoined_self : (joinedSids snew.sockets roomId).Perm
      (sid :: joinedSids s.sockets roomId) := by
    rw [hsock]
    exact joinedSids_modify_some_self s.sockets sid roomId hall hi.nodupSids hsidmem
  refine ⟨?_, ?_, ?_, ?_, ?_, ?_⟩
  · rw [hs]
    exact hi.nodupSids
  · intro sk' hm' r hr
    rw [hsock] at hm'
    obtain ⟨sk, hm, he⟩ := (mem_modifySocket _ _ _ _).1 hm'
    by_cases hk : sk.sid = sid
    · rw [if_pos hk] at he
      rw [he] at hr
      have hrr : roomId = r := Option.some.injEq _ _ ▸ hr
      rw [← hrr, hs]
      exact ⟨hne, hnotin⟩
    · rw [if_neg hk] at he
      rw [he] at hr
      obtain ⟨h1, h2⟩ := hi.roomsOk sk hm r hr
      rw [hs]
      exact ⟨h1, h2⟩
  · intro r hr
    rw [hs] at hr
    rw [hio]
    by_cases hrr : r = roomId
    · subst hrr
      rw [membersOf_append, membersOf_single, if_pos rfl]
      have p1 : (membersOf s.ioRooms r ++ [sid]).Perm (sid :: membersOf s.ioRooms r) :=
        List.perm_append_singleton sid _
      have p2 : (sid :: membersOf s.ioRooms r).Perm (sid :: joinedSids s.sockets r) :=
        (hi.memPerm r hr).cons sid
      exact (p1.trans p2).trans hjoined_self.symm
    · rw [membersOf_append, membersOf_single, if_neg (fun hh => hrr hh.symm),
        List.append_nil, hjoined_other r hrr]
      exact hi.memPerm r hr
  · intro r rd' hget
    rw [hsnew, (updateRoomActivity_of_mem now roomId (x + 1) redis1 hupd).2 r] at hget
    by_cases hrr : roomId = r
    · subst hrr
      rw [if_pos rfl] at hget
      obtain ⟨rd1, hrd1⟩ := Option.isSome_iff_exists.1 hself
      rw [hrd1] at hget
      have hrd' : rd'.userCount = x + 1 := by
        have heq :
            ({ rd1 with userCount := x + 1, lastActivity := now, isActive := decide (x + 1 > 0) } :
              StoredRoom) = rd' := by
          simpa using hget
        rw [← heq]
      rw [hrd', hjoined_self.length_eq, List.length_cons, hx]
      push_cast
      ring
    · rw [if_neg hrr] at hget
      rw [hother r (fun hh => hrr hh.symm)] at hget
      rw [hjoined_other r (fun hh => hrr hh.symm)]
      exact hi.cnt r rd' hget
  · intro r hget
    rw [hsnew, (updateRoomActivity_of_mem now roomId (x + 1) redis1 hupd).2 r] at hget
    by_cases hrr : roomId = r
    · subst hrr
      rw [if_pos rfl] at hget
      obtain ⟨rd1, hrd1⟩ := Option.isSome_iff_exists.1 hself
      rw [hrd1] at hget
      cases hget
    · rw [if_neg hrr] at hget
      rw [hother r (fun hh => hrr hh.symm)] at hget
      rw [hjoined_other r (fun hh => hrr hh.symm)]
      exact hi.cnt0 r hget
  · intro r
    rw [hsnew, updateRoomActivity_fst_roomsList, getRoom_updateRoomActivity_isSome]
    exact hcoh1 r

theorem join_preserves_inv (now : Nat) (sid roomId pw : String) (s : ServerState)
    (hp : preB s (GEvent.joinEv now sid roomId pw) = true) (hi : GInv s) :
    GInv (joinRoom now sid roomId pw s).1 := by
  by_cases hpw : pw = "secret"
  · subst hpw
    have hp' := hp
    unfold preB at hp'
    rw [Bool.and_eq_true, Bool.and_eq_true] at hp'
    obtain ⟨⟨hfind', hne'⟩, hnot'⟩ := hp'
    have hne : roomId ≠ "" := of_decide_eq_true hne'
    have hnotin : roomId ∉ sidsOf s.sockets := of_decide_eq_true hnot'
    obtain ⟨sk0, hsock, hsk0⟩ : ∃ sk0, findSocket s sid = some sk0 ∧ sk0.roomId = none := by
      cases hf : findSocket s sid with
      | none => rw [hf] at hfind'; cases hfind'
      | some sk0 => rw [hf] at hfind'; exact ⟨sk0, rfl, of_decide_eq_true hfind'⟩
    have hsidmem : sid ∈ sidsOf s.sockets := by
      obtain ⟨he, hm⟩ := findSocket_eq s sid sk0 hsock
      rw [← he]
      exact List.mem_map_of_mem _ hm
    have hall : ∀ sk ∈ s.sockets, sk.sid = sid → sk.roomId = none := by
      intro sk hm he
      rw [find_unique s.sockets sid sk0 hi.nodupSids hsock sk hm he]
      exact hsk0
    have hpair : (roomId, sid) ∉ s.ioRooms := by
      intro hmem
      have h1 : sid ∈ membersOf s.ioRooms roomId := (mem_membersOf _ _ _).2 hmem
      have h2 : sid ∈ joinedSids s.sockets roomId :=
        (hi.memPerm roomId hnotin).mem_iff.1 h1
      obtain ⟨sk, hm, he, hr⟩ := (mem_joinedSids _ _ _).1 h2
      rw [hall sk hm he] at hr
      cases hr
    cases hg : getRoom s.redis roomId with
    | some rd =>
      refine ginv_after_join_core now s sid roomId s.redis rd.userCount _
        hi hne hnotin hall hsidmem (hi.cnt roomId rd hg) ?_ (fun r _ => rfl)
        (by simp [hg]) hi.coh ?_ ?_ ?_
      · exact (hi.coh roomId).2 (by simp [hg])
      · simp [joinRoom, hg]
      · simp [joinRoom, hg]
      · simp [joinRoom, hg, joinIoRoom, hpair]
    | none =>
      have hj0 : joinedSids s.sockets roomId = [] := hi.cnt0 roomId hg
      refine ginv_after_join_core now s sid roomId
        (createRoom now roomId none s.redis).2 0 _
        hi hne hnotin hall hsidmem (by rw [hj0]; rfl) ?_ ?_ ?_ ?_ ?_ ?_ ?_
      · show roomId ∈ (if roomId ∈ s.redis.roomsList then s.redis.roomsList
          else roomId :: s.redis.roomsList)
        by_cases hmem : roomId ∈ s.redis.roomsList
        · rw [if_pos hmem]; exact hmem
        · rw [if_neg hmem]; exact List.mem_cons_self _ _
      · intro r hr
        show lookupA (setA s.redis.roomHash roomId _) r = getRoom s.redis r
        rw [lookupA_setA, if_neg (fun hh => hr hh.symm)]
        rfl
      · show (lookupA (setA s.redis.roomHash roomId _) roomId).isSome = true
        rw [lookupA_setA, if_pos rfl]
        rfl
      · intro r
        by_cases hrr : r = roomId
        · subst hrr
          constructor
          · intro _
            show (lookupA (setA s.redis.roomHash r _) r).isSome = true
            rw [lookupA_setA, if_pos rfl]
            rfl
          · intro _
            show r ∈ (if r ∈ s.redis.roomsList then s.redis.roomsList
              else r :: s.redis.roomsList)
            by_cases hmem : r ∈ s.redis.roomsList
            · rw [if_pos hmem]; exact hmem
            · rw [if_neg hmem]; exact List.mem_cons_self _ _
        · have h1 : (getRoom (createRoom now roomId none s.redis).2 r).isSome =
              (getRoom s.redis r).isSome := by
            show (lookupA (setA s.redis.roomHash roomId _) r).isSome = _
            rw [lookupA_setA, if_neg (fun hh => hrr hh.symm)]
            rfl
          have h2 : r ∈ (createRoom now roomId none s.redis).2.roomsList ↔
              r ∈ s.redis.roomsList := by
            show r ∈ (if roomId ∈ s.redis.roomsList then s.redis.roomsList
              else roomId :: s.redis.roomsList) ↔ _
            by_cases hmem : roomId ∈ s.redis.roomsList
            · rw [if_pos hmem]
            · rw [if_neg hmem, List.mem_cons]
              constructor
              · rintro (hh | hh)
                · exact absurd hh hrr
                · exact hh
              · exact fun hh => Or.inr hh
          rw [h1, h2]
          exact hi.coh r
      · simp [joinRoom, hg, createRoom]
      · simp [joinRoom, hg]
      · simp [joinRoom, hg, joinIoRoom, hpair]
  · have heq : (joinRoom now sid roomId pw s).1 = s := by simp [joinRoom, hpw]
    rw [heq]
    exact hi

theorem ginv_conns (s : ServerState) (x : List (String × ConnInfo)) (hi : GInv s) :
    GInv { s with activeConnections := x } :=
  ⟨hi.nodupSids, hi.roomsOk, hi.memPerm, hi.cnt, hi.cnt0, hi.coh⟩

theorem leave_preserves_inv (now : Nat) (sid : String) (s : ServerState)
    (hi : GInv s) : GInv (leaveRoom now sid s).1 := by
  cases hsock : findSocket s sid with
  | none =>
    have heq : (leaveRoom now sid s).1 =
        { s with activeConnections := delA s.activeConnections sid } := by
      simp [leaveRoom, handleUserLeave, hsock]
    rw [heq]
    exact ginv_conns s _ hi
  | some sock =>
    cases hr : sock.roomId with
    | none =>
      have heq : (leaveRoom now sid s).1 =
          { s with activeConnections := delA s.activeConnections sid } := by
        simp [leaveRoom, handleUserLeave, hsock, hr, truthyRoom]
      rw [heq]
      exact ginv_conns s _ hi
    | some r =>
      by_cases he : r = ""
      · have heq : (leaveRoom now sid s).1 =
            { s with activeConnections := delA s.activeConnections sid } := by
          simp [leaveRoom, handleUserLeave, hsock, hr, truthyRoom, he]
        rw [heq]
        exact ginv_conns s _ hi
      · obtain ⟨hsid_eq, hsockmem⟩ := findSocket_eq s sid sock hsock
        obtain ⟨hrne, hrnotin⟩ := hi.roomsOk sock hsockmem r hr
        have hallsock : ∀ sk ∈ s.sockets, sk.sid = sid → sk = sock :=
          find_unique s.sockets sid sock hi.nodupSids hsock
        have hsidjoined : sid ∈ joinedSids s.sockets r :=
          (mem_joinedSids _ _ _).2 ⟨sock, hsockmem, hsid_eq, hr⟩
        have hjnodup : (joinedSids s.sockets r).Nodup :=
          (joinedSids_sublist s.sockets r).nodup hi.nodupSids
        have hnotother : ∀ r', r' ≠ r → sid ∉ joinedSids s.sockets r' := by
          intro r' hner hmem
          obtain ⟨sk, hm, he', hr'⟩ := (mem_joinedSids _ _ _).1 hmem
          rw [hallsock sk hm he', hr] at hr'
          exact hner (Option.some.injEq _ _ ▸ hr').symm
        have h1 : (leaveRoom now sid s).1.redis =
            (updateRoomActivity now r
              (max 0 (((membersOf s.ioRooms r).length : Int) - 1)) s.redis).1 := by
          simp [leaveRoom, handleUserLeave, hsock, hr, truthyRoom, he]
        have h2 : (leaveRoom now sid s).1.sockets =
            modifySocket sid (fun sk => { sk with roomId := none }) s.sockets := by
          simp [leaveRoom, handleUserLeave, hsock, hr, truthyRoom, he]
        have h3 : (leaveRoom now sid s).1.ioRooms =
            s.ioRooms.filter (fun p => p ≠ (r, sid)) := by
          simp [leaveRoom, handleUserLeave, hsock, hr, truthyRoom, he]
        have hjoined' : ∀ r', joinedSids (leaveRoom now sid s).1.sockets r' =
            (joinedSids s.sockets r').filter (fun c => c ≠ sid) := by
          intro r'
          rw [h2]
          exact joinedSids_modify_none s.sockets sid r'
        have hjoined_other : ∀ r', r' ≠ r →
            joinedSids (leaveRoom now sid s).1.sockets r' = joinedSids s.sockets r' := by
          intro r' hner
          rw [hjoined' r']
          apply List.filter_eq_self.2
          intro c hc
          have : c ≠ sid := fun hh => hnotother r' hner (hh ▸ hc)
          simpa using this
        have hlenM : (membersOf s.ioRooms r).length = (joinedSids s.sockets r).length :=
          (hi.memPerm r hrnotin).length_eq
        have hlenpos : 0 < (joinedSids s.sockets r).length :=
          List.length_pos_of_mem hsidjoined
        have hlen' : (joinedSids (leaveRoom now sid s).1.sockets r).length =
            (joinedSids s.sockets r).length - 1 := by
          rw [hjoined' r]
          have hfe : (joinedSids s.sockets r).filter (fun c => c ≠ sid) =
              (joinedSids s.sockets r).erase sid := by
            rw [List.Nodup.erase_eq_filter hjnodup sid]
            apply List.filter_congr
            intro c _
            by_cases hcs : c = sid <;> simp [hcs]
          rw [hfe]
          exact List.length_erase_of_mem hsidjoined
        have hupd : r ∈ s.redis.roomsList := by
          apply (hi.coh r).2
          cases hgr : getRoom s.redis r with
          | none => exact absurd (hi.cnt0 r hgr ▸ hsidjoined) (List.not_mem_nil sid)
          | some rd => rfl
        have hsids : sidsOf (leaveRoom now sid s).1.sockets = sidsOf s.sockets := by
          rw [h2]
          exact sidsOf_modifySocket sid _ s.sockets (fun sk => rfl)
        refine ⟨?_, ?_, ?_, ?_, ?_, ?_⟩
        · rw [hsids]
          exact hi.nodupSids
        · intro sk' hm' r' hr'
          rw [h2] at hm'
          obtain ⟨sk, hm, heq⟩ := (mem_modifySocket _ _ _ _).1 hm'
          rw [hsids]
          by_cases hk : sk.sid = sid
          · rw [if_pos hk] at heq
            rw [heq] at hr'
            cases hr'
          · rw [if_neg hk] at heq
            rw [heq] at hr'
            exact hi.roomsOk sk hm r' hr'
        · intro r' hr'
          rw [hsids] at hr'
          rw [h3, membersOf_filter_pair]
          by_cases hrr : r' = r
          · subst hrr
            rw [if_pos rfl, hjoined' r']
            exact (hi.memPerm r' hr').filter _
          · rw [if_neg hrr, hjoined_other r' hrr]
            exact hi.memPerm r' hr'
        · intro r' rd' hget
          rw [h1, (updateRoomActivity_of_mem now r _ s.redis hupd).2 r'] at hget
          by_cases hrr : r = r'
          · subst hrr
            cases hgr : getRoom s.redis r with
            | none => rw [if_pos rfl, hgr] at hget; cases hget
            | some rd0 =>
              rw [if_pos rfl, hgr] at hget
              have heq2 :
                  ({ rd0 with
                      userCount := max 0 (((membersOf s.ioRooms r).length : Int) - 1),
                      lastActivity := now,
                      isActive := decide
                        (max 0 (((membersOf s.ioRooms r).length : Int) - 1) > 0) } :
                    StoredRoom) = rd' := by
                simpa using hget
              rw [← heq2]
              show max 0 (((membersOf s.ioRooms r).length : Int) - 1) =
                ((joinedSids (leaveRoom now sid s).1.sockets r).length : Int)
              rw [hlen', hlenM]
              have hcast : ((joinedSids s.sockets r).length - 1 : Nat) =
                  (joinedSids s.sockets r).length - 1 := rfl
              push_cast [Nat.cast_sub (Nat.one_le_iff_ne_zero.2 (Nat.pos_iff_ne_zero.1 hlenpos))]
              omega
          · rw [if_neg hrr] at hget
            rw [hjoined_other r' (fun hh => hrr hh.symm)]
            exact hi.cnt r' rd' hget
        · intro r' hget
          rw [h1, (updateRoomActivity_of_mem now r _ s.redis hupd).2 r'] at hget
          by_cases hrr : r = r'
          · subst hrr
            cases hgr : getRoom s.redis r with
            | none => exact absurd (hi.cnt0 r hgr ▸ hsidjoined) (List.not_mem_nil sid)
            | some rd0 => rw [if_pos rfl, hgr] at hget; cases hget
          · rw [if_neg hrr] at hget
            rw [hjoined_other r' (fun hh => hrr hh.symm), hi.cnt0 r' hget]
        · intro r'
          rw [h1, updateRoomActivity_fst_roomsList, getRoom_updateRoomActivity_isSome]
          exact hi.coh r'

theorem gstep_preserves_inv (e : GEvent) (s : ServerState)
    (hp : preB s e = true) (hi : GInv s) : GInv (gstep e s).1 := by
  cases e with
  | connect now sid => exact connect_preserves_inv now sid s hp hi
  | joinEv now sid roomId pw => exact join_preserves_inv now sid roomId pw s hp hi
  | leaveEv now sid => exact leave_preserves_inv now sid s hi

theorem ginv_run (es : List GEvent) :
    ∀ s : ServerState, legalFrom s es = true → GInv s → GInv (grun es s) := by
  induction es with
  | nil => intro s _ hi; exact hi
  | cons e t ih =>
    intro s hl hi
    unfold legalFrom at hl
    rw [Bool.and_eq_true] at hl
    exact ih (gstep e s).1 hl.2 (gstep_preserves_inv e s hl.1 hi)

/-- Claim C2 as amended: over any legal sequence of connection openings
and `join-room`/`leave-room` events — one in which every `join-room` comes
from a connected socket that is not already joined, and names a nonempty
room id that collides with no connection id — the `userCount` stored in
the Room Store for every room equals the number of connections currently
in the Joined state for that room (and rooms absent from the store have
none).  The original claim over arbitrary sequences fails (see the double
join counterexample). -/
theorem C2_store_count_matches_joined (es : List GEvent)
    (h : legalFrom initialState es = true) :
    (∀ r rd, getRoom (grun es initialState).redis r = some rd →
      rd.userCount = ((joinedSids (grun es initialState).sockets r).length : Int)) ∧
    (∀ r, getRoom (grun es initialState).redis r = none →
      joinedSids (grun es initialState).sockets r = []) := by
  have hi := ginv_run es initialState h ginv_initial
  exact ⟨hi.cnt, hi.cnt0⟩

theorem C2_store_count_witness :
    getRoom (grun [GEvent.connect 0 "a", GEvent.connect 1 "b",
        GEvent.joinEv 2 "a" "r" "secret", GEvent.joinEv 3 "b" "r" "secret",
        GEvent.leaveEv 4 "a"] initialState).redis "r" =
      some { userCount := 1, createdAt := 2, lastActivity := 4
             createdBy := none, isActive := true } ∧
    ({ userCount := 1, createdAt := 2, lastActivity := 4
       createdBy := none, isActive := true } : StoredRoom).userCount =
      ((joinedSids (grun [GEvent.connect 0 "a", GEvent.connect 1 "b",
        GEvent.joinEv 2 "a" "r" "secret", GEvent.joinEv 3 "b" "r" "secret",
        GEvent.leaveEv 4 "a"] initialState).sockets "r").length : Int) :=
  ⟨by decide,
   (C2_store_count_matches_joined [GEvent.connect 0 "a", GEvent.connect 1 "b",
        GEvent.joinEv 2 "a" "r" "secret", GEvent.joinEv 3 "b" "r" "secret",
        GEvent.leaveEv 4 "a"] (by decide)).1 "r"
      { userCount := 1, createdAt := 2, lastActivity := 4
        createdBy := none, isActive := true } (by decide)⟩
